import Mathlib

/-!
Verification of the handle layer of `hdf5-rust` (`src/hdf5-rs/src/handle.rs`).

The native HDF5 library is modelled as a black box (`Native`): a category
query (`H5Iget_type`) and a user-validity query (`H5Iis_valid`).  Native calls
that mutate the library's internal state (`H5Idec_ref`, `H5Iinc_ref`) are
modelled by passing the post-call native state explicitly and recording the
calls that were issued in a trace (`NativeCall`).

Shared cells (`Arc<RwLock<hid_t>>` in the source) are modelled as a heap of
integer-valued cells indexed by `Nat`, so that cell identity is observable.
The process-wide registry (`Registry` in the source) maps a raw id to a cell
index.  All operations are explicit state passing over `RegState`.
-/

/-- The invalid-identifier sentinel (`H5I_INVALID_HID`). -/
def H5I_INVALID_HID : Int := -1

/-- Lower sentinel of the category enumeration (`H5I_BADID`). -/
def H5I_BADID : Int := -1

/-- Upper sentinel of the category enumeration (`H5I_NTYPES`). -/
def H5I_NTYPES : Int := 13

/-- Black-box state of the native library: the raw result of the category
query `H5Iget_type` and the user-validity predicate `H5Iis_valid == 1`. -/
structure Native where
  ty : Int → Int
  user : Int → Bool

/-- A refcount-mutating call into the native library. -/
inductive NativeCall where
  | decRef (id : Int)
  | incRef (id : Int)
deriving DecidableEq, Repr

/-- Pointwise update of a heap of cells. -/
def upd (f : Nat → Int) (k : Nat) (v : Int) : Nat → Int :=
  fun x => if x = k then v else f x

/-- The heap of shared cells: cell values, and the next fresh cell index
(cells below `nextCell` are allocated). -/
structure Heap where
  cellVal : Nat → Int
  nextCell : Nat

/-- Global registry state: the cell heap plus the registry map from a raw id
value to the index of its current shared cell (`Registry.registry` in the
source, a `HashMap<hid_t, Arc<RwLock<hid_t>>>`). -/
structure RegState where
  heap : Heap
  reg : Int → Option Nat

/-- A `Handle` wraps a reference to one shared cell: here, its heap index. -/
structure Handle where
  cell : Nat
deriving DecidableEq, Repr

/-- `get_id_type` from the source: queries `H5Iget_type`, returns the result
when `id > 0` and the raw category is strictly between `H5I_BADID` and
`H5I_NTYPES`, and `H5I_BADID` otherwise. -/
def get_id_type (n : Native) (id : Int) : Int :=
  let tp := n.ty id
  if id > 0 ∧ H5I_BADID < tp ∧ tp < H5I_NTYPES then tp else H5I_BADID

/-- `is_valid_id` from the source: the id's category is strictly between the
sentinels. -/
def is_valid_id (n : Native) (id : Int) : Bool :=
  let tp := get_id_type n id
  decide (H5I_BADID < tp ∧ tp < H5I_NTYPES)

/-- `is_valid_user_id` from the source: `H5Iis_valid(id) == 1`. -/
def is_valid_user_id (n : Native) (id : Int) : Bool :=
  n.user id

/-- Typed model of the crate's error values as raised by this module.
`invalidHandle id` is the `"Invalid handle id: {id}"` failure of
`Handle::new`; `wrongType name id` is the `"Invalid {name} id: {id}"` failure
of `FromID::from_id`. -/
inductive HError where
  | invalidHandle (id : Int)
  | wrongType (expected : String) (id : Int)
deriving DecidableEq, Repr

namespace Registry

/-- `Registry::new_handle` from the source: look up `id` in the map,
inserting a fresh cell holding `id` when absent (`entry(id).or_insert_with`);
when the existing cell's current value differs from `id` (stale cell from a
previous invalidation), replace the entry with a fresh cell holding `id`;
return the cell. -/
def new_handle (s : RegState) (id : Int) : RegState × Nat :=
  match s.reg id with
  | none =>
      let c := s.heap.nextCell
      ({ heap := { cellVal := upd s.heap.cellVal c id, nextCell := c + 1 },
         reg := fun x => if x = id then some c else s.reg x }, c)
  | some c =>
      if s.heap.cellVal c = id then (s, c)
      else
        let c2 := s.heap.nextCell
        ({ heap := { cellVal := upd s.heap.cellVal c2 id, nextCell := c2 + 1 },
           reg := fun x => if x = id then some c2 else s.reg x }, c2)

end Registry

namespace Handle

/-- `Handle::new` from the source: fails when `is_valid_user_id(id)` is
false; otherwise resolves `id` through the registry and wraps the cell. -/
def new (n : Native) (s : RegState) (id : Int) : Except HError Handle × RegState :=
  if is_valid_user_id n id then
    let r := Registry.new_handle s id
    (Except.ok ⟨r.2⟩, r.1)
  else
    (Except.error (HError.invalidHandle id), s)

/-- `Handle::invalid` from the source: a fresh cell holding the invalid
sentinel, bypassing the registry. -/
def invalid (s : RegState) : RegState × Handle :=
  let c := s.heap.nextCell
  ({ heap := { cellVal := upd s.heap.cellVal c H5I_INVALID_HID, nextCell := c + 1 },
     reg := s.reg }, ⟨c⟩)

/-- `Handle::id` from the source: read the current value of the cell. -/
def id (s : RegState) (h : Handle) : Int :=
  s.heap.cellVal h.cell

/-- `Handle::invalidate` from the source: write the invalid sentinel into
the cell. -/
def invalidate (s : RegState) (h : Handle) : RegState :=
  { s with heap := { s.heap with cellVal := upd s.heap.cellVal h.cell H5I_INVALID_HID } }

/-- `Handle::incref` from the source: when the current cell value is
user-valid, issue `H5Iinc_ref` on it; returns the native calls issued. -/
def incref (n : Native) (s : RegState) (h : Handle) : List NativeCall :=
  if is_valid_user_id n (Handle.id s h) then [NativeCall.incRef (Handle.id s h)] else []

/-- `Handle::decref` from the source: issue `H5Idec_ref` when the current
cell value is structurally valid; afterwards (`nDec` is the native state
after the decrement, when one happened), when the value is neither
user-valid nor structurally valid, invalidate the cell. -/
def decref (n nDec : Native) (s : RegState) (h : Handle) : RegState × List NativeCall :=
  let id0 := Handle.id s h
  let calls := if is_valid_id n id0 then [NativeCall.decRef id0] else []
  let n2 := if is_valid_id n id0 then nDec else n
  let s2 :=
    if !(is_valid_user_id n2 (Handle.id s h)) && !(is_valid_id n2 (Handle.id s h)) then
      Handle.invalidate s h
    else s
  (s2, calls)

/-- `Clone for Handle` from the source: call `incref` on the current id
(`nInc` is the native state after the increment, when one happened), then
re-resolve via `Handle::new`; on failure degrade to `Handle::invalid`. -/
def clone (n nInc : Native) (s : RegState) (h : Handle) :
    RegState × Handle × List NativeCall :=
  let calls := Handle.incref n s h
  let n2 := if is_valid_user_id n (Handle.id s h) then nInc else n
  match Handle.new n2 s (Handle.id s h) with
  | (Except.ok h2, s2) => (s2, h2, calls)
  | (Except.error _, s2) =>
      let p := Handle.invalid s2
      (p.1, p.2, calls)

/-- `Drop for Handle` from the source: `decref`. -/
def drop (n nDec : Native) (s : RegState) (h : Handle) : RegState × List NativeCall :=
  Handle.decref n nDec s h

end Handle

/-- One implementation of the `FromID` trait from the source: the type name
used in error messages, the accepted-category predicate, and the infallible
wrapper from a validated handle. -/
structure FromIDImpl (α : Type) where
  object_type_name : String
  is_valid_id_type : Int → Bool
  from_handle : Handle → α

/-- The default `FromID::from_id` algorithm from the source: when the
category of `id` is accepted, build `Handle::new(id)` and wrap it,
propagating its error; otherwise fail with the wrong-type error.  The third
component is the trace of refcount-mutating native calls issued. -/
def from_id {α : Type} (F : FromIDImpl α) (n : Native) (s : RegState) (id : Int) :
    Except HError α × RegState × List NativeCall :=
  if F.is_valid_id_type (get_id_type n id) then
    match Handle.new n s id with
    | (Except.ok h, s2) => (Except.ok (F.from_handle h), s2, [])
    | (Except.error e, s2) => (Except.error e, s2, [])
  else
    (Except.error (HError.wrongType F.object_type_name id), s, [])

/-! ## Helper lemmas -/

theorem upd_same (f : Nat → Int) (k : Nat) (v : Int) : upd f k v k = v := by
  simp [upd]

theorem upd_other (f : Nat → Int) (k : Nat) (v : Int) (x : Nat) (hx : x ≠ k) :
    upd f k v x = f x := by
  simp [upd, hx]

theorem new_handle_cellVal (s : RegState) (id : Int) :
    (Registry.new_handle s id).1.heap.cellVal (Registry.new_handle s id).2 = id := by
  unfold Registry.new_handle
  cases hr : s.reg id with
  | none => simp [upd]
  | some c =>
      by_cases hc : s.heap.cellVal c = id
      · simp [hc]
      · simp [hc, upd]

theorem is_valid_id_of_invalid_hid (n : Native) :
    is_valid_id n H5I_INVALID_HID = false := by
  simp [is_valid_id, get_id_type, H5I_INVALID_HID, H5I_BADID, H5I_NTYPES]

/-! ## Concrete states used by witnesses -/

/-- A native state where id 5 is a live user-valid object of category 3. -/
def nLive : Native := ⟨fun _ => 3, fun i => decide (i = 5)⟩

/-- A native state where every id is dead. -/
def nDead : Native := ⟨fun _ => -1, fun _ => false⟩

/-- The empty registry state. -/
def s0 : RegState := ⟨⟨fun _ => 0, 0⟩, fun _ => none⟩

/-- A registry state where id 7 maps to cell 0 which still holds 7. -/
def sLive : RegState := ⟨⟨fun x => if x = 0 then 7 else 0, 1⟩, fun i => if i = 7 then some 0 else none⟩

/-- A registry state where id 7 maps to cell 0 which now holds the invalid
sentinel (stale entry). -/
def sStale : RegState := ⟨⟨fun x => if x = 0 then -1 else 0, 1⟩, fun i => if i = 7 then some 0 else none⟩

/-- A registry state with one allocated cell holding the invalid sentinel
and an empty registry map. -/
def sInv : RegState := ⟨⟨fun _ => -1, 1⟩, fun _ => none⟩

/-! ## Claims -/

/-- C6: `get_id_type` returns `H5I_BADID` when `id ≤ 0` or the native
category query's result is outside the open interval
(`H5I_BADID`, `H5I_NTYPES`), and otherwise returns the native result; in
particular, for `id ≤ 0`, the category is `H5I_BADID` and `is_valid_id` is
false. -/
theorem get_id_type_spec (n : Native) (id : Int) :
    (get_id_type n id
       = if id ≤ 0 ∨ n.ty id ≤ H5I_BADID ∨ H5I_NTYPES ≤ n.ty id then H5I_BADID
         else n.ty id)
  ∧ (id ≤ 0 → get_id_type n id = H5I_BADID ∧ is_valid_id n id = false) := by
  constructor
  · unfold get_id_type
    simp only [H5I_BADID, H5I_NTYPES]
    by_cases h1 : id > 0 ∧ (-1 : Int) < n.ty id ∧ n.ty id < 13
    · rw [if_pos h1, if_neg (by omega)]
    · rw [if_neg h1, if_pos (by omega)]
  · intro hle
    have h1 : ¬ (id > 0 ∧ H5I_BADID < n.ty id ∧ n.ty id < H5I_NTYPES) := by
      simp only [H5I_BADID, H5I_NTYPES]
      omega
    constructor
    · unfold get_id_type
      rw [if_neg h1]
    · unfold is_valid_id get_id_type
      rw [if_neg h1]
      simp [H5I_BADID]

/-- C6 witness: at id `-3`, the category is `H5I_BADID` and `is_valid_id`
is false. -/
theorem get_id_type_spec_witness :
    get_id_type nLive (-3) = H5I_BADID ∧ is_valid_id nLive (-3) = false :=
  (get_id_type_spec nLive (-3)).2 (by norm_num)

/-- C7: `is_valid_id` holds iff `get_id_type` lies strictly between the
sentinels `H5I_BADID` and `H5I_NTYPES`. -/
theorem is_valid_id_iff_category_in_range (n : Native) (id : Int) :
    is_valid_id n id = true
      ↔ (H5I_BADID < get_id_type n id ∧ get_id_type n id < H5I_NTYPES) := by
  simp [is_valid_id]

/-- C10: the cell returned by `Registry::new_handle` holds exactly the
requested id at the moment it is returned, so a handle wrapping it
initially reads that id. -/
theorem new_handle_holds_requested_id (s : RegState) (id : Int) :
    (Registry.new_handle s id).1.heap.cellVal (Registry.new_handle s id).2 = id
  ∧ Handle.id (Registry.new_handle s id).1 ⟨(Registry.new_handle s id).2⟩ = id :=
  ⟨new_handle_cellVal s id, new_handle_cellVal s id⟩

/-- C5: when the registry maps `id` to a cell that still holds `id`,
`Registry::new_handle` returns that very cell and leaves the state
unchanged (no duplicate cell for the same live value). -/
theorem new_handle_same_cell (s : RegState) (id : Int) (c : Nat)
    (hreg : s.reg id = some c) (hcur : s.heap.cellVal c = id) :
    Registry.new_handle s id = (s, c) := by
  unfold Registry.new_handle
  rw [hreg]
  simp [hcur]

/-- C5 witness: resolving id 7 in `sLive` returns cell 0 and the unchanged
state. -/
theorem new_handle_same_cell_witness :
    Registry.new_handle sLive 7 = (sLive, 0) :=
  new_handle_same_cell sLive 7 0 rfl rfl

/-- C9: `Handle::invalidate` writes the invalid sentinel into the shared
cell, and every handle sharing that cell subsequently reads the invalid
sentinel. -/
theorem invalidate_visible_to_coowners (s : RegState) (h h2 : Handle)
    (hshare : h2.cell = h.cell) :
    Handle.id (Handle.invalidate s h) h2 = H5I_INVALID_HID := by
  simp [Handle.id, Handle.invalidate, hshare, upd]

/-- C9 witness: invalidating cell 0 in `sLive` makes a co-owning handle of
cell 0 read the invalid sentinel. -/
theorem invalidate_visible_to_coowners_witness :
    Handle.id (Handle.invalidate sLive ⟨0⟩) ⟨0⟩ = H5I_INVALID_HID :=
  invalidate_visible_to_coowners sLive ⟨0⟩ ⟨0⟩ rfl

/-- C1: `Handle::new(id)` fails with the invalid-handle error iff
`is_valid_user_id(id)` is false; on success the returned handle reads back
`id` and is user-valid. -/
theorem handle_new_spec (n : Native) (s : RegState) (id : Int) :
    ((Handle.new n s id).1 = Except.error (HError.invalidHandle id)
       ↔ is_valid_user_id n id = false)
  ∧ (∀ h, (Handle.new n s id).1 = Except.ok h →
      Handle.id (Handle.new n s id).2 h = id
    ∧ is_valid_user_id n (Handle.id (Handle.new n s id).2 h) = true) := by
  unfold Handle.new
  by_cases hu : is_valid_user_id n id
  · simp only [hu, if_true]
    refine ⟨by simp, ?_⟩
    intro h hok
    have hh : h = ⟨(Registry.new_handle s id).2⟩ := by
      cases hok
      rfl
    subst hh
    refine ⟨new_handle_cellVal s id, ?_⟩
    show is_valid_user_id n
        ((Registry.new_handle s id).1.heap.cellVal (Registry.new_handle s id).2) = true
    rw [new_handle_cellVal s id]
    exact hu
  · simp only [hu, if_false]
    refine ⟨by simp [Bool.eq_false_iff, hu], ?_⟩
    intro h hok
    cases hok

/-- C1 witness: in `nLive`/`s0`, `Handle::new 5` succeeds with a handle
reading back 5 and user-valid. -/
theorem handle_new_spec_witness :
    Handle.id (Handle.new nLive s0 5).2 ⟨0⟩ = 5
  ∧ is_valid_user_id nLive (Handle.id (Handle.new nLive s0 5).2 ⟨0⟩) = true :=
  (handle_new_spec nLive s0 5).2 ⟨0⟩ (by rfl)

/-- C4: when the registry maps `id` to an allocated cell whose current
value differs from `id`, `Registry::new_handle` returns a fresh cell
distinct from the old one, holding `id`; the old cell's value is untouched
and the registry now maps `id` to the fresh cell; consequently a successful
`Handle::new id` wraps a cell distinct from the stale one. -/
theorem new_handle_replaces_stale (s : RegState) (id : Int) (c : Nat)
    (hreg : s.reg id = some c) (hwf : c < s.heap.nextCell)
    (hstale : s.heap.cellVal c ≠ id) :
    (Registry.new_handle s id).2 ≠ c
  ∧ (Registry.new_handle s id).1.heap.cellVal (Registry.new_handle s id).2 = id
  ∧ (Registry.new_handle s id).1.heap.cellVal c = s.heap.cellVal c
  ∧ (Registry.new_handle s id).1.reg id = some (Registry.new_handle s id).2
  ∧ (∀ n h s2, Handle.new n s id = (Except.ok h, s2) → h.cell ≠ c) := by
  have hc2 : (Registry.new_handle s id).2 = s.heap.nextCell := by
    unfold Registry.new_handle
    rw [hreg]
    simp [hstale]
  have hne : s.heap.nextCell ≠ c := by omega
  refine ⟨by rw [hc2]; exact hne, new_handle_cellVal s id, ?_, ?_, ?_⟩
  · unfold Registry.new_handle
    rw [hreg]
    simp only [hstale, if_neg, if_false]
    exact upd_other _ _ _ _ (by omega)
  · unfold Registry.new_handle
    rw [hreg]
    simp [hstale]
  · intro n h s2 hok
    unfold Handle.new at hok
    by_cases hu : is_valid_user_id n id
    · simp only [hu, if_true] at hok
      have hh : h = ⟨(Registry.new_handle s id).2⟩ := by
        cases hok
        rfl
      rw [hh, hc2]
      exact hne
    · simp only [hu, if_false] at hok
      cases hok

/-- C4 witness: in `sStale` (id 7 mapped to stale cell 0 holding the
sentinel), resolving 7 yields cell 1, distinct from 0, and a successful
`Handle::new` wraps cell 1. -/
theorem new_handle_replaces_stale_witness :
    (Registry.new_handle sStale 7).2 ≠ 0
  ∧ (Registry.new_handle sStale 7).1.heap.cellVal (Registry.new_handle sStale 7).2 = 7
  ∧ (Registry.new_handle sStale 7).1.heap.cellVal 0 = sStale.heap.cellVal 0
  ∧ (Registry.new_handle sStale 7).1.reg 7 = some (Registry.new_handle sStale 7).2
  ∧ (∀ n h s2, Handle.new n sStale 7 = (Except.ok h, s2) → h.cell ≠ 0) :=
  new_handle_replaces_stale sStale 7 0 rfl (by decide) (by decide)

/-- C2: `decref` issues the native decrement iff the current cell value is
structurally valid; it invalidates the cell iff, in the post-decrement
native state, the value is neither user-valid nor structurally valid; on a
cell already holding the invalid sentinel it issues no decrement and the
cell keeps holding the sentinel. -/
theorem decref_spec (n nDec : Native) (s : RegState) (h : Handle) :
    ((Handle.decref n nDec s h).2
       = if is_valid_id n (Handle.id s h) then [NativeCall.decRef (Handle.id s h)] else [])
  ∧ ((Handle.decref n nDec s h).1
       = if is_valid_user_id (if is_valid_id n (Handle.id s h) then nDec else n)
              (Handle.id s h) = false
          ∧ is_valid_id (if is_valid_id n (Handle.id s h) then nDec else n)
              (Handle.id s h) = false
         then Handle.invalidate s h else s)
  ∧ (Handle.id s h = H5I_INVALID_HID →
      (Handle.decref n nDec s h).2 = []
    ∧ Handle.id (Handle.decref n nDec s h).1 h = H5I_INVALID_HID) := by
  refine ⟨rfl, ?_, ?_⟩
  · by_cases hu : is_valid_user_id (if is_valid_id n (Handle.id s h) then nDec else n)
        (Handle.id s h) = true
    <;> by_cases hv : is_valid_id (if is_valid_id n (Handle.id s h) then nDec else n)
        (Handle.id s h) = true
    <;> simp [Handle.decref, hu, hv]
  · intro hinv
    have hv0 : is_valid_id n (Handle.id s h) = false := by
      rw [hinv]
      exact is_valid_id_of_invalid_hid n
    refine ⟨by simp [Handle.decref, hv0], ?_⟩
    by_cases hu : is_valid_user_id n (Handle.id s h) = true
    · simp only [Handle.decref, hv0, hu]
      rw [if_neg]
      · exact hinv
      · simp [hu]
    · have hu2 : is_valid_user_id n (Handle.id s h) = false := by
        simpa using hu
      have h1 : (Handle.decref n nDec s h).1 = Handle.invalidate s h := by
        simp [Handle.decref, hv0, hu2]
      rw [h1]
      simp [Handle.invalidate, Handle.id, upd]

/-- C2 witness: on a handle whose cell holds the invalid sentinel (in
`sInv`, with every id dead in `nDead`), `decref` issues no native call and
the cell still holds the sentinel. -/
theorem decref_spec_witness :
    (Handle.decref nDead nDead sInv ⟨0⟩).2 = []
  ∧ Handle.id (Handle.decref nDead nDead sInv ⟨0⟩).1 ⟨0⟩ = H5I_INVALID_HID :=
  (decref_spec nDead nDead sInv ⟨0⟩).2.2 (by decide)

/-- C3: `clone` issues exactly the calls of `incref` on the current id,
then re-resolves via `Handle::new` in the post-increment native state; when
resolution succeeds the clone is the resolved handle, and when it fails the
clone degrades to an invalid handle (reading the invalid sentinel) — clone
itself is total and propagates no error. -/
theorem clone_spec (n nInc : Native) (s : RegState) (h : Handle) :
    (Handle.clone n nInc s h).2.2 = Handle.incref n s h
  ∧ (∀ h2 s2,
      Handle.new (if is_valid_user_id n (Handle.id s h) then nInc else n) s (Handle.id s h)
        = (Except.ok h2, s2) →
      (Handle.clone n nInc s h).1 = s2 ∧ (Handle.clone n nInc s h).2.1 = h2)
  ∧ (∀ e s2,
      Handle.new (if is_valid_user_id n (Handle.id s h) then nInc else n) s (Handle.id s h)
        = (Except.error e, s2) →
      Handle.id (Handle.clone n nInc s h).1 (Handle.clone n nInc s h).2.1
        = H5I_INVALID_HID) := by
  refine ⟨?_, ?_, ?_⟩
  · rcases hm : Handle.new (if is_valid_user_id n (Handle.id s h) then nInc else n) s
        (Handle.id s h) with ⟨res, s3⟩
    cases res <;> simp [Handle.clone, hm]
  · intro h2 s2 hm
    simp [Handle.clone, hm]
  · intro e s2 hm
    simp only [Handle.clone, hm]
    simp [Handle.invalid, Handle.id, upd]

/-- C3 witness: with every id dead, re-resolution fails and the clone reads
the invalid sentinel. -/
theorem clone_spec_witness :
    Handle.id (Handle.clone nDead nDead sInv ⟨0⟩).1 (Handle.clone nDead nDead sInv ⟨0⟩).2.1
      = H5I_INVALID_HID :=
  (clone_spec nDead nDead sInv ⟨0⟩).2.2 (HError.invalidHandle (Handle.id sInv ⟨0⟩)) sInv rfl

/-- C8: the default `from_id` fails with the wrong-type error naming
`object_type_name` and `id`, leaving the state unchanged and issuing no
refcount call, whenever the category of `id` is rejected; when accepted, it
wraps the handle produced by `Handle::new` and propagates its error. -/
theorem from_id_spec {α : Type} (F : FromIDImpl α) (n : Native) (s : RegState) (id : Int) :
    (F.is_valid_id_type (get_id_type n id) = false →
      from_id F n s id = (Except.error (HError.wrongType F.object_type_name id), s, []))
  ∧ (F.is_valid_id_type (get_id_type n id) = true →
      (∀ h s2, Handle.new n s id = (Except.ok h, s2) →
        from_id F n s id = (Except.ok (F.from_handle h), s2, []))
    ∧ (∀ e s2, Handle.new n s id = (Except.error e, s2) →
        from_id F n s id = (Except.error e, s2, []))) := by
  refine ⟨?_, ?_⟩
  · intro hrej
    simp [from_id, hrej]
  · intro hacc
    refine ⟨?_, ?_⟩
    · intro h s2 hm
      simp [from_id, hacc, hm]
    · intro e s2 hm
      simp [from_id, hacc, hm]

/-- A concrete `FromID` implementation used by the C8 witness: accepts only
category 1. -/
def F0 : FromIDImpl Handle where
  object_type_name := "file"
  is_valid_id_type := fun t => decide (t = 1)
  from_handle := fun h => h

/-- C8 witness: with every id dead, the category of 5 is `H5I_BADID`, which
`F0` rejects, so `from_id` fails with the wrong-type error, leaves the
state unchanged and issues no native call. -/
theorem from_id_spec_witness :
    from_id F0 nDead s0 5 = (Except.error (HError.wrongType F0.object_type_name 5), s0, []) :=
  (from_id_spec F0 nDead s0 5).1 (by decide)
